import Mathlib

/-!
Shallow embedding of the `appointment_addons` repository (a Frappe app for
appointment booking) and verification of its specification claims.

Conventions used throughout the embedding:
* calendar dates are absolute day numbers (`Nat`); the weekday of a date is
  `date % 7` (the concrete assignment of names Monday..Sunday to residues is
  irrelevant to every claim, only consistency matters);
* times of day are minutes since midnight (`Nat`); an absolute instant is
  `date * 1440 + minutes`.  All claim-relevant comparisons in the source are
  at whole-minute granularity;
* Python `while` loops are embedded with an explicit fuel argument that
  strictly exceeds the number of iterations whenever the slot duration is
  positive (the only case in which the Python loop terminates);
* `frappe.throw` raises an exception whose text becomes `str(e)` in the
  endpoint's `except` handler; fallible code is embedded with `Except String`.
-/

namespace AppointmentAddons

/-- Booking status (the `status` Select field of both booking doctypes). -/
inductive Status
  | pending
  | confirmed
  | cancelled
deriving DecidableEq, Repr

/-- The two booking record sets ("doctypes") that can occupy a time slot. -/
inductive Doctype
  | appointmentBooking
  | videoProduction
deriving DecidableEq, Repr

/-- One persisted booking row, as filtered by `frappe.db.count` /
`frappe.get_all` in `get_time_slots` (`booking_date`, `booking_time`,
`status`, and which doctype's table it lives in). -/
structure Booking where
  date : Nat
  time : Nat
  status : Status
  doctype : Doctype
deriving DecidableEq, Repr

/-- An emitted available slot: the claim-relevant fields of the dicts built by
`get_time_slots` (`date`, `day`, `from_time`, `to_time`; the remaining keys
are display-formatting of these). -/
structure Slot where
  date : Nat
  day : Nat
  fromMin : Nat
  toMin : Nat
deriving DecidableEq, Repr

/-- `frappe.db.count(doctype, {booking_date, booking_time, status in
[Pending, Confirmed]})`: the number of bookings of doctype `dt` at date `d`
and time `t` whose status is Pending or Confirmed. -/
def countBookings (bk : List Booking) (dt : Doctype) (d t : Nat) : Nat :=
  (bk.filter (fun b =>
    decide (b.doctype = dt ∧ b.date = d ∧ b.time = t ∧
      (b.status = .pending ∨ b.status = .confirmed)))).length

/-- A booking with status Pending or Confirmed exists at `(d, t)` in either
record set (the union across both doctypes). -/
def bookedUnion (bk : List Booking) (d t : Nat) : Bool :=
  bk.any (fun b =>
    decide (b.date = d ∧ b.time = t ∧
      (b.status = .pending ∨ b.status = .confirmed)))

/-! ## `book_appointment.py` (underscore file): `get_time_slots` -/

/-- One row of the `Appointment Booking Slots` child table (the source stores
`day_of_week` as a weekday name; we store its weekday index). -/
structure BookingSlotRow where
  day_of_week : Nat
  from_time : Nat
  to_time : Nat
deriving DecidableEq, Repr

/-- The claim-relevant fields of the `Appointment Booking Settings` single. -/
structure BookingSettings where
  enable_scheduling : Bool
  appointment_duration : Nat
  advance_booking_days : Nat
  availability_of_slots : List BookingSlotRow
deriving Repr

/-- The inner `while current_time + timedelta(minutes=appointment_duration)
<= end_datetime` loop of `book_appointment.get_time_slots`, for one working
range on one date.  Per iteration: skip the candidate when
`slot_datetime < now - 5 minutes` (in minutes: `date*1440 + cur + 5 < now`),
otherwise skip it when booked in `Appointment Booking` or in
`Video Production Appointment`, otherwise emit it; in every branch the cursor
advances by the duration.  `fuel` bounds the iteration count; callers pass
`endT + 1`, which exceeds the iteration count whenever `dur ≥ 1`. -/
def slotLoop (bk : List Booking) (date dur endT now : Nat) :
    Nat → Nat → List Slot
  | 0, _ => []
  | fuel + 1, cur =>
    if cur + dur ≤ endT then
      if date * 1440 + cur + 5 < now then
        slotLoop bk date dur endT now fuel (cur + dur)
      else if 0 < countBookings bk .appointmentBooking date cur ∨
          0 < countBookings bk .videoProduction date cur then
        slotLoop bk date dur endT now fuel (cur + dur)
      else
        ⟨date, date % 7, cur, cur + dur⟩ ::
          slotLoop bk date dur endT now fuel (cur + dur)
    else []

/-- The grouping `availability_by_day` restricted to one weekday: the rows for
that weekday, in child-table (`idx`) order — Python builds a dict whose
per-day lists preserve the fetched `order_by="idx"` order. -/
def availabilityByDay (rows : List BookingSlotRow) (wday : Nat) :
    List BookingSlotRow :=
  rows.filter (fun r => decide (r.day_of_week = wday))

/-- `book_appointment.get_time_slots` after the settings document has been
loaded: return `[]` when scheduling is disabled or no availability rows are
configured; otherwise, for each day offset below `advance_booking_days`, sweep
every configured range of that date's weekday. -/
def get_time_slots (s : BookingSettings) (today now : Nat)
    (bk : List Booking) : List Slot :=
  if s.enable_scheduling = false then []
  else if s.availability_of_slots = [] then []
  else
    (List.range s.advance_booking_days).flatMap fun i =>
      let date := today + i
      (availabilityByDay s.availability_of_slots (date % 7)).flatMap fun r =>
        slotLoop bk date s.appointment_duration r.to_time now
          (r.to_time + 1) r.from_time

/-- The `except`/missing-document boundary of `book_appointment.get_time_slots`:
when fetching `Appointment Booking Settings` raises (document missing), the
error is logged and `[]` is returned. -/
def get_time_slots_top (fetch : Except String BookingSettings)
    (today now : Nat) (bk : List Booking) : List Slot :=
  match fetch with
  | .error _ => []
  | .ok s => get_time_slots s today now bk

/-- The outer `try/except` of `get_time_slots`: any exception raised while
generating slots is logged and the endpoint returns `[]`. -/
def get_time_slots_guarded (run : Except String (List Slot)) : List Slot :=
  match run with
  | .error _ => []
  | .ok l => l

/-! ## `book-appointment.py` (hyphen file): `get_time_slots` -/

/-- The claim-relevant fields of the `Appointment Settings` single used by the
hyphen file: a single global working range, the ticked weekday checkboxes
(as weekday indices, in the source's monday..sunday iteration order), and the
default slot duration. -/
structure AppointmentSettings where
  working_start_time : Nat
  working_end_time : Nat
  working_days : List Nat
  default_slot_duration : Nat
deriving Repr

/-- An active `Appointment Service` row (only `duration` is read here). -/
structure Service where
  duration : Nat
deriving DecidableEq, Repr

/-- Slot duration selection of the hyphen `get_time_slots`: the minimum
duration among active services when any exist, else
`settings.default_slot_duration or 60` (Python `or`: the default kicks in
when the stored value is falsy, i.e. `0`). -/
def slot_duration_of (services : List Service) (s : AppointmentSettings) :
    Nat :=
  match services.map (fun sv => sv.duration) with
  | [] => if s.default_slot_duration = 0 then 60 else s.default_slot_duration
  | d :: ds => ds.foldl Nat.min d

/-- The inner `while` loop of the hyphen `get_time_slots`: skip a candidate
when `slot_datetime <= now` (no buffer), otherwise skip it when a Pending or
Confirmed `Appointment Booking` exists at its date and start time (this file
never consults `Video Production Appointment`), otherwise emit it. -/
def slotLoopHy (bk : List Booking) (date dur endT now : Nat) :
    Nat → Nat → List Slot
  | 0, _ => []
  | fuel + 1, cur =>
    if cur + dur ≤ endT then
      if date * 1440 + cur ≤ now then
        slotLoopHy bk date dur endT now fuel (cur + dur)
      else if 0 < countBookings bk .appointmentBooking date cur then
        slotLoopHy bk date dur endT now fuel (cur + dur)
      else
        ⟨date, date % 7, cur, cur + dur⟩ ::
          slotLoopHy bk date dur endT now fuel (cur + dur)
    else []

/-- The hyphen `get_time_slots`: a fixed 30-day horizon; a day is swept with
the single global range iff its weekday is among the ticked working days
(defaulting to the five weekdays `[0, 1, 2, 3, 4]` when none are ticked). -/
def get_time_slots_hy (s : AppointmentSettings) (services : List Service)
    (today now : Nat) (bk : List Booking) : List Slot :=
  let dur := slot_duration_of services s
  let wd := if s.working_days = [] then [0, 1, 2, 3, 4] else s.working_days
  (List.range 30).flatMap fun i =>
    let date := today + i
    if date % 7 ∈ wd then
      slotLoopHy bk date dur s.working_end_time now
        (s.working_end_time + 1) s.working_start_time
    else []

/-! ## Claim C7: output ordering -/

/-- The claimed output order: ascending by `(date, from_time)`
lexicographically. -/
def slotLe (a b : Slot) : Prop :=
  a.date < b.date ∨ (a.date = b.date ∧ a.fromMin ≤ b.fromMin)

instance slotLe.instDecidable (a b : Slot) : Decidable (slotLe a b) :=
  inferInstanceAs (Decidable (a.date < b.date ∨
    (a.date = b.date ∧ a.fromMin ≤ b.fromMin)))

/-- A slot sequence is sorted by `(date, from_time)` ascending. -/
def sortedSlots (l : List Slot) : Prop :=
  List.Chain' slotLe l

instance sortedSlots.instDecidable (l : List Slot) :
    Decidable (sortedSlots l) :=
  inferInstanceAs (Decidable (List.Chain' slotLe l))

/-! ## Appointment intake: `create_appointment` (both variants) and the
doctype validation

Strings model the text fields of the JSON payload; Python falsiness of a
missing or empty field is the empty string (`[]` for the services list,
`none` for the optional date).  `frappe.throw(_(msg))` raises an exception
whose `str(e)` is `msg`; the endpoint's `except` handler turns it into
`{"success": False, "message": str(e)}`.  `validate_email_address` and
`doc.insert` are host-framework collaborators, passed as `Except`-valued
functions. -/

/-- The dict returned by the `create_appointment` endpoints. -/
structure ApiResponse where
  success : Bool
  message : String
  appointment_id : Option String
deriving DecidableEq, Repr

/-- The JSON payload of `book_appointment.create_appointment`. -/
structure ApptPayload where
  customer_name : String
  phone_number : String
  email : String
  selected_services : List String
  meeting_location : String
  booking_date : String
  booking_time : String
  location : String
  street_name : String
  building_name : String
  apartment_number : String
deriving DecidableEq, Repr

/-- The `Appointment Booking` document assembled by `create_appointment`. -/
structure ApptRecord where
  customer_name : String
  phone_number : String
  email : String
  meeting_location : String
  booking_date : String
  booking_time : String
  status : String
  services : List String
  location : String
  street_name : String
  building_name : String
  apartment_number : String
  company_location : String
deriving DecidableEq, Repr

/-- The `try` body of `book_appointment.create_appointment`: the required
field checks in source order (each `frappe.throw` is an `.error`), then the
email well-formedness check, then document assembly and `doc.insert` (which
yields the assigned name or raises).  The confirmation email is wrapped in
its own `try/except: pass` in the source and affects nothing observable
here. -/
def create_appointment_body (d : ApptPayload)
    (emailCheck : String → Except String Unit) (companyLocation : String)
    (insert : ApptRecord → Except String String) :
    Except String (ApiResponse × ApptRecord) :=
  if d.customer_name = "" then .error "Customer Name is required"
  else if d.phone_number = "" then .error "Phone Number is required"
  else if d.email = "" then .error "Email is required"
  else match emailCheck d.email with
  | .error m => .error m
  | .ok _ =>
    if d.selected_services = [] then
      .error "Please select at least one service"
    else if d.meeting_location = "" then .error "Meeting Location is required"
    else if d.booking_date = "" then .error "Booking Date is required"
    else if d.booking_time = "" then .error "Booking Time is required"
    else
      let base : ApptRecord :=
        { customer_name := d.customer_name
          phone_number := d.phone_number
          email := d.email
          meeting_location := d.meeting_location
          booking_date := d.booking_date
          booking_time := d.booking_time
          status := "Pending"
          services := d.selected_services
          location := ""
          street_name := ""
          building_name := ""
          apartment_number := ""
          company_location := "" }
      let doc :=
        if d.meeting_location = "Customer Location" then
          { base with
            location := d.location
            street_name := d.street_name
            building_name := d.building_name
            apartment_number := d.apartment_number }
        else { base with company_location := companyLocation }
      match insert doc with
      | .error m => .error m
      | .ok nm =>
        .ok ({ success := true
               message := "Your appointment has been booked successfully!"
               appointment_id := some nm }, doc)

/-- `book_appointment.create_appointment` as seen by the guest: the `except`
boundary maps any raised exception text to
`{"success": False, "message": str(e)}`; the second component is the record
persisted by `doc.insert` (none when nothing was inserted). -/
def create_appointment (d : ApptPayload)
    (emailCheck : String → Except String Unit) (companyLocation : String)
    (insert : ApptRecord → Except String String) :
    ApiResponse × Option ApptRecord :=
  match create_appointment_body d emailCheck companyLocation insert with
  | .ok (r, doc) => (r, some doc)
  | .error m =>
    ({ success := false, message := m, appointment_id := none }, none)

/-- Modelled from the claim's wording, for refinement comparison only: the
first missing required field in the claimed order (name, phone, email,
service(s), location, date, time), paired with the source's error message
for that field. -/
def claimFirstMissing (d : ApptPayload) : Option String :=
  if d.customer_name = "" then some "Customer Name is required"
  else if d.phone_number = "" then some "Phone Number is required"
  else if d.email = "" then some "Email is required"
  else if d.selected_services = [] then
    some "Please select at least one service"
  else if d.meeting_location = "" then some "Meeting Location is required"
  else if d.booking_date = "" then some "Booking Date is required"
  else if d.booking_time = "" then some "Booking Time is required"
  else none

/-- The debug dict assembled by `debug_appointment_settings` on success (its
claim-relevant scalar fields). -/
structure DebugInfo where
  settings_exists : Bool
  enable_scheduling : Bool
  appointment_duration : Nat
  advance_booking_days : Nat
  availability_slots_count : Nat
deriving DecidableEq, Repr

/-- The guest-visible result of `debug_appointment_settings`. -/
inductive DebugResult
  | info (i : DebugInfo)
  | errorDetail (error traceback : String)
deriving DecidableEq, Repr

/-- `book_appointment.debug_appointment_settings`: a guest-whitelisted
endpoint that returns the settings debug dict, and on any exception returns
`{"error": str(e), "traceback": traceback.format_exc()}` to the caller. -/
def debug_appointment_settings (fetch : Except (String × String) DebugInfo) :
    DebugResult :=
  match fetch with
  | .ok i => .info i
  | .error e => .errorDetail e.1 e.2

/-! ### `video-production-appointment.py`: `create_appointment`, and the
`VideoProductionAppointment` doctype validation -/

/-- The JSON payload of the video-production `create_appointment`.
`company` is `none` when the key is absent (Python's
`data.get("company", "Directlines")` default applies only then); the
booking date is `none` when absent. -/
structure VpaPayload where
  customer_name : String
  phone_number : String
  email : String
  appointment_type : String
  meeting_location : String
  booking_date : Option Nat
  booking_time : String
  company : Option String
  industry : String
  service : String
  requirements : String
  budget : String
  notes : String
  references : String
  brand_name : String
  acknowledgment_checkbox : Bool
  current_client_references : String
  google_location : String
  city : String
  zone_number : String
  street_number : String
  building_number : String
  location : String
  street_name : String
  building_name : String
  apartment_number : String
deriving DecidableEq, Repr

/-- The `Video Production Appointment` document.  The booking date is an
absolute day number (`none` when unset). -/
structure VpaRecord where
  company : String
  customer_name : String
  phone_number : String
  email : String
  appointment_type : String
  meeting_location : String
  booking_date : Option Nat
  booking_time : String
  status : String
  industry : String
  service : String
  requirements : String
  budget : String
  notes : String
  references : String
  brand_name : String
  acknowledgment_checkbox : Bool
  current_client_references : String
  google_location : String
  city : String
  zone_number : String
  street_number : String
  building_number : String
  location : String
  street_name : String
  building_name : String
  apartment_number : String
deriving DecidableEq, Repr

/-- Document assembly of the video-production `create_appointment`: the base
fields plus the type-dependent block (`New Customer` sets
industry/service/requirements/budget/notes/references; otherwise the
current-active-client block is set), the location fields, and the
backward-compatibility fields (assigned from the payload only when truthy,
which coincides with copying them, since an unset field is the empty
string). -/
def buildVpaDoc (d : VpaPayload) (company : String) : VpaRecord :=
  { company := company
    customer_name := d.customer_name
    phone_number := d.phone_number
    email := d.email
    appointment_type := d.appointment_type
    meeting_location := d.meeting_location
    booking_date := d.booking_date
    booking_time := d.booking_time
    status := "Pending"
    industry := if d.appointment_type = "New Customer" then d.industry else ""
    service := if d.appointment_type = "New Customer" then d.service else ""
    requirements :=
      if d.appointment_type = "New Customer" then d.requirements else ""
    budget := if d.appointment_type = "New Customer" then d.budget else ""
    notes := if d.appointment_type = "New Customer" then d.notes else ""
    references :=
      if d.appointment_type = "New Customer" then d.references else ""
    brand_name :=
      if d.appointment_type = "New Customer" then "" else d.brand_name
    acknowledgment_checkbox :=
      if d.appointment_type = "New Customer" then false
      else d.acknowledgment_checkbox
    current_client_references :=
      if d.appointment_type = "New Customer" then ""
      else d.current_client_references
    google_location := d.google_location
    city := d.city
    zone_number := d.zone_number
    street_number := d.street_number
    building_number := d.building_number
    location := d.location
    street_name := d.street_name
    building_name := d.building_name
    apartment_number := d.apartment_number }

/-- The `try` body of the video-production `create_appointment`: required
field checks in source order, email validation, then company defaulting
(`Directlines` when the key is absent), normalization (`Direct Line` and
`Directlines` both become `Directlines`), the allow-list check
(`Easy AI` / `Directlines`), document assembly, and `doc.insert`. -/
def video_create_appointment_body (d : VpaPayload)
    (emailCheck : String → Except String Unit)
    (insert : VpaRecord → Except String String) :
    Except String (ApiResponse × VpaRecord) :=
  if d.customer_name = "" then .error "Customer Name is required"
  else if d.phone_number = "" then .error "Phone Number is required"
  else if d.email = "" then .error "Email is required"
  else match emailCheck d.email with
  | .error m => .error m
  | .ok _ =>
    if d.appointment_type = "" then .error "Appointment Type is required"
    else if d.meeting_location = "" then
      .error "Meeting Location is required"
    else if d.booking_date = none then .error "Booking Date is required"
    else if d.booking_time = "" then .error "Booking Time is required"
    else
      let company0 := d.company.getD "Directlines"
      let company :=
        if company0 = "Direct Line" ∨ company0 = "Directlines" then
          "Directlines"
        else company0
      if company ≠ "Easy AI" ∧ company ≠ "Directlines" then
        .error "Invalid company selected"
      else
        let doc := buildVpaDoc d company
        match insert doc with
        | .error m => .error m
        | .ok nm =>
          .ok ({ success := true
                 message := "Your appointment request has been submitted successfully! We will contact you soon."
                 appointment_id := some nm }, doc)

/-- The video-production `create_appointment` as seen by the guest, with the
same `except` boundary shape as the general endpoint. -/
def video_create_appointment (d : VpaPayload)
    (emailCheck : String → Except String Unit)
    (insert : VpaRecord → Except String String) :
    ApiResponse × Option VpaRecord :=
  match video_create_appointment_body d emailCheck insert with
  | .ok (r, doc) => (r, some doc)
  | .error m =>
    ({ success := false, message := m, appointment_id := none }, none)

/-- `VideoProductionAppointment.validate` (the doctype controller, run on
insert): type-dependent required-field checks, using Python falsiness
(empty string / unset date / unticked checkbox). -/
def vpaValidate (doc : VpaRecord) : Except String Unit :=
  if doc.appointment_type = "New Customer" then
    if doc.industry = "" then
      .error "Industry is required for New Customer appointments"
    else if doc.requirements = "" then
      .error "Requirements is required for New Customer appointments"
    else if doc.budget = "" then
      .error "Budget is required for New Customer appointments"
    else .ok ()
  else if doc.appointment_type = "Current Active Client" then
    if doc.brand_name = "" then
      .error "Name of Your Brand is required for Current Active Client appointments"
    else if doc.booking_date = none then
      .error "Schedule is required for Current Active Client appointments"
    else if doc.acknowledgment_checkbox = false then
      .error "Please acknowledge the cancellation policy"
    else .ok ()
  else .ok ()

/-! ## `availability-settings.py`: `save_availability` (claim C9)

The `User Availability` store is a list of records; `frappe.db.exists` /
`frappe.get_doc` by `{user, day_of_week}` is the first matching record,
`doc.save` replaces it in place, and `doc.insert` appends a new record. -/

/-- A `time_slots` child row. -/
structure TimeSlotRow where
  from_time : String
  to_time : String
deriving DecidableEq, Repr

/-- A persisted `User Availability` document. -/
structure UARecord where
  user : String
  day_of_week : String
  is_available : Bool
  time_slots : List TimeSlotRow
deriving DecidableEq, Repr

/-- One day's entry of the `save_availability` JSON payload. -/
structure DayEntry where
  day : String
  is_available : Bool
  time_slots : List TimeSlotRow
deriving DecidableEq, Repr

/-- Lookup by `{user, day_of_week}` (the first matching record, as
`frappe.db.exists` resolves the filter). -/
def findUA (store : List UARecord) (user day : String) : Option UARecord :=
  store.find? (fun r => decide (r.user = user ∧ r.day_of_week = day))

/-- `doc.save` on a fetched document: replace the first record matching
`{user, day_of_week}`. -/
def replaceFirst (user day : String) (new : UARecord) :
    List UARecord → List UARecord
  | [] => []
  | r :: rs =>
    if r.user = user ∧ r.day_of_week = day then new :: rs
    else r :: replaceFirst user day new rs

/-- The `for slot in time_slots: doc.append("time_slots", ...)` loop. -/
def appendSlots (doc : UARecord) (slots : List TimeSlotRow) : UARecord :=
  slots.foldl
    (fun d s => { d with time_slots := d.time_slots ++ [s] }) doc

/-- One iteration of the `for day_data in data` loop of `save_availability`:
on update the fetched document's `time_slots` is first cleared
(`doc.time_slots = []`) and the payload's slots are appended only when
`is_available` is truthy; on create the new document starts empty and gets
the payload's slots under the same condition. -/
def applyDay (store : List UARecord) (user : String) (e : DayEntry) :
    List UARecord :=
  match findUA store user e.day with
  | some old =>
    let cleared : UARecord :=
      { old with is_available := e.is_available, time_slots := [] }
    let updated :=
      if e.is_available then appendSlots cleared e.time_slots else cleared
    replaceFirst user e.day updated store
  | none =>
    let base : UARecord :=
      { user := user, day_of_week := e.day,
        is_available := e.is_available, time_slots := [] }
    let doc :=
      if e.is_available then appendSlots base e.time_slots else base
    store ++ [doc]

/-- `save_availability` for a logged-in `user`: upsert every day entry of the
payload in order. -/
def save_availability (store : List UARecord) (user : String)
    (entries : List DayEntry) : List UARecord :=
  entries.foldl (fun st e => applyDay st user e) store

/-! ## Emission lemmas for `slotLoop` -/

theorem slotLoop_mem {bk : List Booking} {date dur endT now : Nat} :
    ∀ {fuel cur : Nat} {s : Slot}, s ∈ slotLoop bk date dur endT now fuel cur →
      (∃ k, s.fromMin = cur + dur * k) ∧ s.fromMin + dur ≤ endT ∧
        s.date = date ∧ s.day = date % 7 ∧ s.toMin = s.fromMin + dur ∧
        ¬ (date * 1440 + s.fromMin + 5 < now) ∧
        countBookings bk .appointmentBooking date s.fromMin = 0 ∧
        countBookings bk .videoProduction date s.fromMin = 0 := by
  intro fuel
  induction fuel with
  | zero => intro cur s h; simp [slotLoop] at h
  | succ n ih =>
    intro cur s h
    rw [slotLoop] at h
    by_cases hg : cur + dur ≤ endT
    · rw [if_pos hg] at h
      by_cases hp : date * 1440 + cur + 5 < now
      · rw [if_pos hp] at h
        obtain ⟨⟨k, hk⟩, rest⟩ := ih h
        exact ⟨⟨k + 1, by rw [hk]; ring⟩, rest⟩
      · rw [if_neg hp] at h
        by_cases hb : 0 < countBookings bk .appointmentBooking date cur ∨
            0 < countBookings bk .videoProduction date cur
        · rw [if_pos hb] at h
          obtain ⟨⟨k, hk⟩, rest⟩ := ih h
          exact ⟨⟨k + 1, by rw [hk]; ring⟩, rest⟩
        · rw [if_neg hb] at h
          push_neg at hb
          rcases List.mem_cons.mp h with hs | hs
          · subst hs
            refine ⟨⟨0, by simp⟩, hg, rfl, rfl, rfl, hp, ?_, ?_⟩
            · show countBookings bk .appointmentBooking date cur = 0
              omega
            · show countBookings bk .videoProduction date cur = 0
              omega
          · obtain ⟨⟨k, hk⟩, rest⟩ := ih hs
            exact ⟨⟨k + 1, by rw [hk]; ring⟩, rest⟩
    · rw [if_neg hg] at h
      simp at h

/-- Completeness of the sweep: a candidate `cur + dur * k` that fits in the
range and passes the freshness and booking filters is emitted, provided the
fuel covers step `k`. -/
theorem slotLoop_complete {bk : List Booking} {date dur endT now : Nat} :
    ∀ {k fuel cur : Nat}, k < fuel → cur + dur * k + dur ≤ endT →
      ¬ (date * 1440 + (cur + dur * k) + 5 < now) →
      countBookings bk .appointmentBooking date (cur + dur * k) = 0 →
      countBookings bk .videoProduction date (cur + dur * k) = 0 →
      (⟨date, date % 7, cur + dur * k, cur + dur * k + dur⟩ : Slot) ∈
        slotLoop bk date dur endT now fuel cur := by
  intro k
  induction k with
  | zero =>
    intro fuel cur hf hle hp h1 h2
    match fuel, hf with
    | n + 1, _ =>
      rw [slotLoop]
      simp only [Nat.mul_zero, Nat.add_zero] at hle hp h1 h2 ⊢
      rw [if_pos hle, if_neg hp, if_neg (by omega)]
      exact List.mem_cons_self _ _
  | succ k ih =>
    intro fuel cur hf hle hp h1 h2
    match fuel, hf with
    | n + 1, hf =>
      rw [slotLoop]
      have hg : cur + dur ≤ endT := by nlinarith [Nat.mul_le_mul_left dur (Nat.succ_le_succ (Nat.zero_le k))]
      rw [if_pos hg]
      have harith : cur + dur * (k + 1) = (cur + dur) + dur * k := by ring
      have hmem : (⟨date, date % 7, (cur + dur) + dur * k,
          (cur + dur) + dur * k + dur⟩ : Slot) ∈
          slotLoop bk date dur endT now n (cur + dur) := by
        refine ih (by omega) ?_ ?_ ?_ ?_
        · omega
        · rw [← harith]; exact hp
        · rw [← harith]; exact h1
        · rw [← harith]; exact h2
      rw [harith]
      by_cases hp0 : date * 1440 + cur + 5 < now
      · rw [if_pos hp0]; exact hmem
      · rw [if_neg hp0]
        by_cases hb : 0 < countBookings bk .appointmentBooking date cur ∨
            0 < countBookings bk .videoProduction date cur
        · rw [if_pos hb]; exact hmem
        · rw [if_neg hb]; exact List.mem_cons_of_mem _ hmem

theorem slotLoopHy_mem {bk : List Booking} {date dur endT now : Nat} :
    ∀ {fuel cur : Nat} {s : Slot},
      s ∈ slotLoopHy bk date dur endT now fuel cur →
      (∃ k, s.fromMin = cur + dur * k) ∧ s.fromMin + dur ≤ endT ∧
        s.date = date ∧ s.day = date % 7 ∧ s.toMin = s.fromMin + dur ∧
        now < date * 1440 + s.fromMin ∧
        countBookings bk .appointmentBooking date s.fromMin = 0 := by
  intro fuel
  induction fuel with
  | zero => intro cur s h; simp [slotLoopHy] at h
  | succ n ih =>
    intro cur s h
    rw [slotLoopHy] at h
    by_cases hg : cur + dur ≤ endT
    · rw [if_pos hg] at h
      by_cases hp : date * 1440 + cur ≤ now
      · rw [if_pos hp] at h
        obtain ⟨⟨k, hk⟩, rest⟩ := ih h
        exact ⟨⟨k + 1, by rw [hk]; ring⟩, rest⟩
      · rw [if_neg hp] at h
        by_cases hb : 0 < countBookings bk .appointmentBooking date cur
        · rw [if_pos hb] at h
          obtain ⟨⟨k, hk⟩, rest⟩ := ih h
          exact ⟨⟨k + 1, by rw [hk]; ring⟩, rest⟩
        · rw [if_neg hb] at h
          rcases List.mem_cons.mp h with hs | hs
          · subst hs
            refine ⟨⟨0, by simp⟩, hg, rfl, rfl, rfl, ?_, ?_⟩
            · show now < date * 1440 + cur
              omega
            · show countBookings bk .appointmentBooking date cur = 0
              omega
          · obtain ⟨⟨k, hk⟩, rest⟩ := ih hs
            exact ⟨⟨k + 1, by rw [hk]; ring⟩, rest⟩
    · rw [if_neg hg] at h
      simp at h

/-! ## Claim C1 -/

/-- **C1.** For every working range and positive slot duration, the sweep
starts its cursor at `from_time`, advances in steps of the duration (every
emitted start is `from_time + k * duration`), and emits a candidate only
while `cursor + duration ≤ to_time` (every emitted slot ends by `to_time`,
with `to_time = from_time + duration` for the slot).  In particular, for a
working range `[09:00, 10:00)` (minutes 540..600) a 30-minute duration emits
exactly the two slots `09:00-09:30` and `09:30-10:00`, and a 40-minute
duration emits exactly the one slot `09:00-09:40`, with no partial slot past
`to_time`. -/
theorem C1_slot_sweep :
    (∀ (bk : List Booking) (date dur endT now fuel cur : Nat) (s : Slot),
        s ∈ slotLoop bk date dur endT now fuel cur →
          (∃ k, s.fromMin = cur + dur * k) ∧ s.fromMin + dur ≤ endT ∧
            s.toMin = s.fromMin + dur) ∧
    get_time_slots ⟨true, 30, 1, [⟨0, 540, 600⟩]⟩ 0 0 [] =
      [⟨0, 0, 540, 570⟩, ⟨0, 0, 570, 600⟩] ∧
    get_time_slots ⟨true, 40, 1, [⟨0, 540, 600⟩]⟩ 0 0 [] =
      [⟨0, 0, 540, 580⟩] := by
  refine ⟨?_, by decide, by decide⟩
  intro bk date dur endT now fuel cur s h
  obtain ⟨hk, hle, _, _, hto, _⟩ := slotLoop_mem h
  exact ⟨hk, hle, hto⟩

/-- Witness for C1: the membership hypothesis discharged at the concrete slot
`09:30-10:00` of the 30-minute configuration. -/
theorem C1_slot_sweep_witness :
    (∃ k, (Slot.mk 0 0 570 600).fromMin = 540 + 30 * k) ∧
      (Slot.mk 0 0 570 600).fromMin + 30 ≤ 600 ∧
      (Slot.mk 0 0 570 600).toMin = (Slot.mk 0 0 570 600).fromMin + 30 :=
  C1_slot_sweep.1 [] 0 30 600 0 601 540 ⟨0, 0, 570, 600⟩ (by decide)

/-! ## Membership unwrapping and booked-set lemmas -/

theorem countBookings_eq_zero {bk : List Booking} {dt : Doctype} {d t : Nat} :
    countBookings bk dt d t = 0 ↔
      ∀ b ∈ bk, ¬(b.doctype = dt ∧ b.date = d ∧ b.time = t ∧
        (b.status = .pending ∨ b.status = .confirmed)) := by
  simp [countBookings, List.length_eq_zero, List.filter_eq_nil_iff]

theorem bookedUnion_eq_false {bk : List Booking} {d t : Nat} :
    bookedUnion bk d t = false ↔
      ∀ b ∈ bk, ¬(b.date = d ∧ b.time = t ∧
        (b.status = .pending ∨ b.status = .confirmed)) := by
  simp [bookedUnion, List.any_eq_false]

theorem bookedUnion_false_iff_counts {bk : List Booking} {d t : Nat} :
    bookedUnion bk d t = false ↔
      countBookings bk .appointmentBooking d t = 0 ∧
        countBookings bk .videoProduction d t = 0 := by
  rw [bookedUnion_eq_false, countBookings_eq_zero, countBookings_eq_zero]
  constructor
  · intro h
    exact ⟨fun b hb hc => h b hb hc.2, fun b hb hc => h b hb hc.2⟩
  · rintro ⟨hA, hV⟩ b hb hc
    cases hdt : b.doctype with
    | appointmentBooking => exact hA b hb ⟨hdt, hc⟩
    | videoProduction => exact hV b hb ⟨hdt, hc⟩

theorem get_time_slots_mem {s : BookingSettings} {today now : Nat}
    {bk : List Booking} {x : Slot} (h : x ∈ get_time_slots s today now bk) :
    ∃ i, i < s.advance_booking_days ∧
      ∃ r ∈ availabilityByDay s.availability_of_slots ((today + i) % 7),
        x ∈ slotLoop bk (today + i) s.appointment_duration r.to_time now
          (r.to_time + 1) r.from_time := by
  rw [get_time_slots] at h
  split at h
  · simp at h
  · split at h
    · simp at h
    · obtain ⟨i, hi, hmem⟩ := List.mem_flatMap.mp h
      rw [List.mem_range] at hi
      obtain ⟨r, hr, hx⟩ := List.mem_flatMap.mp hmem
      exact ⟨i, hi, r, hr, hx⟩

theorem get_time_slots_hy_mem {s : AppointmentSettings}
    {services : List Service} {today now : Nat} {bk : List Booking} {x : Slot}
    (h : x ∈ get_time_slots_hy s services today now bk) :
    ∃ i, i < 30 ∧
      x ∈ slotLoopHy bk (today + i) (slot_duration_of services s)
        s.working_end_time now (s.working_end_time + 1)
        s.working_start_time := by
  rw [get_time_slots_hy] at h
  obtain ⟨i, hi, hmem⟩ := List.mem_flatMap.mp h
  rw [List.mem_range] at hi
  have hmem' : x ∈ (if (today + i) % 7 ∈
      (if s.working_days = [] then [0, 1, 2, 3, 4] else s.working_days) then
        slotLoopHy bk (today + i) (slot_duration_of services s)
          s.working_end_time now (s.working_end_time + 1)
          s.working_start_time
      else []) := hmem
  refine ⟨i, hi, ?_⟩
  by_cases hc : (today + i) % 7 ∈
      (if s.working_days = [] then [0, 1, 2, 3, 4] else s.working_days)
  · rwa [if_pos hc] at hmem'
  · rw [if_neg hc] at hmem'
    simp at hmem'

/-! ## Claim C2 -/

/-- **C2 counterexample.** The hyphen `get_time_slots` never consults
`Video Production Appointment`: with a single Pending video-production booking
occupying `(date 0, 09:00)`, the matching candidate `09:00-10:00` is still
emitted, although the booking belongs to the union of booking record sets
(`bookedUnion` holds at that date and time), which the claim says must block
the slot. -/
theorem C2_counterexample :
    (Slot.mk 0 0 540 600) ∈
      get_time_slots_hy ⟨540, 600, [0], 0⟩ [⟨60⟩] 0 0
        [⟨0, 540, .pending, .videoProduction⟩] ∧
    bookedUnion [⟨0, 540, .pending, .videoProduction⟩] 0 540 = true := by
  exact ⟨by decide, by decide⟩

/-- **C2 (amended).** The underscore `book_appointment.get_time_slots` blocks
a candidate by the union over both record sets: every emitted slot has no
Pending or Confirmed booking at its `(date, start_time)` in either
`Appointment Booking` or `Video Production Appointment` (soundness), and a
candidate of the sweep that passes the freshness filter and is not booked in
the union is emitted (completeness).  The hyphen `get_time_slots` consults
only `Appointment Booking` (its counterexample shows video-production
bookings do not block there). -/
theorem C2_booked_union :
    (∀ (s : BookingSettings) (today now : Nat) (bk : List Booking) (x : Slot),
        x ∈ get_time_slots s today now bk →
          bookedUnion bk x.date x.fromMin = false) ∧
    (∀ (s : BookingSettings) (today now : Nat) (bk : List Booking),
        s.enable_scheduling = true → s.availability_of_slots ≠ [] →
        1 ≤ s.appointment_duration →
        ∀ i, i < s.advance_booking_days →
        ∀ r, r ∈ availabilityByDay s.availability_of_slots ((today + i) % 7) →
        ∀ k, r.from_time + s.appointment_duration * k +
            s.appointment_duration ≤ r.to_time →
          ¬ ((today + i) * 1440 + (r.from_time + s.appointment_duration * k) +
              5 < now) →
          bookedUnion bk (today + i)
            (r.from_time + s.appointment_duration * k) = false →
          (Slot.mk (today + i) ((today + i) % 7)
              (r.from_time + s.appointment_duration * k)
              (r.from_time + s.appointment_duration * k +
                s.appointment_duration)) ∈
            get_time_slots s today now bk) := by
  constructor
  · intro s today now bk x hx
    obtain ⟨i, _, r, _, hloop⟩ := get_time_slots_mem hx
    obtain ⟨_, _, hdate, _, _, _, h1, h2⟩ := slotLoop_mem hloop
    rw [bookedUnion_false_iff_counts]
    rw [hdate]
    exact ⟨h1, h2⟩
  · intro s today now bk hen hne hdur i hi r hr k hk hfresh hfree
    rw [bookedUnion_false_iff_counts] at hfree
    have hfuel : k < r.to_time + 1 := by
      have hkk : k ≤ s.appointment_duration * k :=
        Nat.le_mul_of_pos_left k (by omega)
      omega
    have hmem := slotLoop_complete hfuel hk hfresh hfree.1 hfree.2
    rw [get_time_slots]
    rw [if_neg (by simp [hen]), if_neg hne]
    refine List.mem_flatMap.mpr ⟨i, List.mem_range.mpr hi, ?_⟩
    exact List.mem_flatMap.mpr ⟨r, hr, hmem⟩

/-- Witness for the amended C2: the completeness direction applied at a
concrete configuration and candidate index `k = 1`. -/
theorem C2_booked_union_witness :
    (Slot.mk 0 0 (540 + 30 * 1) (540 + 30 * 1 + 30)) ∈
      get_time_slots ⟨true, 30, 1, [⟨0, 540, 600⟩]⟩ 0 0 [] :=
  C2_booked_union.2 ⟨true, 30, 1, [⟨0, 540, 600⟩]⟩ 0 0 [] rfl (by decide)
    (by decide) 0 (by decide) ⟨0, 540, 600⟩ (by decide) 1 (by decide)
    (by decide) (by decide)

/-! ## Claim C3 -/

/-- **C3 counterexample.** In the underscore `book_appointment.get_time_slots`
the 5-minute buffer is subtracted from `now`, so a candidate is kept whenever
its start is at or after `now - 5` minutes: with the request at absolute
minute 543 (09:03 of day 0), the slot starting at minute 540 (09:00, already
3 minutes in the past, hence at or before `now`) is returned, although the
claim says candidates starting at or before `now` are excluded. -/
theorem C3_counterexample :
    (Slot.mk 0 0 540 570) ∈
      get_time_slots ⟨true, 30, 1, [⟨0, 540, 600⟩]⟩ 0 543 [] ∧
    0 * 1440 + 540 ≤ 543 := by
  exact ⟨by decide, by decide⟩

/-- **C3 (amended).** The hyphen `get_time_slots` returns only slots whose
start is strictly after the request time (no buffer); the underscore
`book_appointment.get_time_slots` instead subtracts its 5-minute buffer from
`now`, guaranteeing only that every returned slot starts at or after
`now - 5` minutes — slots starting at or up to 5 minutes before `now` are
returned, and a slot 1 minute in the future is always included rather than
excluded. -/
theorem C3_freshness_bounds :
    (∀ (s : BookingSettings) (today now : Nat) (bk : List Booking) (x : Slot),
        x ∈ get_time_slots s today now bk →
          now ≤ x.date * 1440 + x.fromMin + 5) ∧
    (∀ (s : AppointmentSettings) (services : List Service) (today now : Nat)
        (bk : List Booking) (x : Slot),
        x ∈ get_time_slots_hy s services today now bk →
          now < x.date * 1440 + x.fromMin) := by
  constructor
  · intro s today now bk x hx
    obtain ⟨i, _, r, _, hloop⟩ := get_time_slots_mem hx
    obtain ⟨_, _, hdate, _, _, hfresh, _, _⟩ := slotLoop_mem hloop
    rw [hdate]
    omega
  · intro s services today now bk x hx
    obtain ⟨i, _, hloop⟩ := get_time_slots_hy_mem hx
    obtain ⟨_, _, hdate, _, _, hfresh, _⟩ := slotLoopHy_mem hloop
    rw [hdate]
    exact hfresh

/-- Witness for the amended C3: the underscore bound discharged at the
counterexample's configuration and slot. -/
theorem C3_freshness_bounds_witness :
    (543 : Nat) ≤ (Slot.mk 0 0 540 570).date * 1440 +
      (Slot.mk 0 0 540 570).fromMin + 5 :=
  C3_freshness_bounds.1 ⟨true, 30, 1, [⟨0, 540, 600⟩]⟩ 0 543 []
    ⟨0, 0, 540, 570⟩ (by decide)

/-! ## Claim C8 -/

/-- **C8.** `get_time_slots` returns an empty list on every lookup failure or
absent configuration: when fetching the settings document raises (document
missing), when scheduling is disabled, when no availability slots are
configured, and when any internal exception escapes slot generation (the
outer `try/except` boundary). -/
theorem C8_empty_on_failure :
    (∀ (e : String) (today now : Nat) (bk : List Booking),
        get_time_slots_top (Except.error e) today now bk = []) ∧
    (∀ (s : BookingSettings) (today now : Nat) (bk : List Booking),
        s.enable_scheduling = false → get_time_slots s today now bk = []) ∧
    (∀ (s : BookingSettings) (today now : Nat) (bk : List Booking),
        s.availability_of_slots = [] → get_time_slots s today now bk = []) ∧
    (∀ e : String, get_time_slots_guarded (Except.error e) = []) := by
  refine ⟨fun e _ _ _ => rfl, ?_, ?_, fun e => rfl⟩
  · intro s today now bk h
    simp [get_time_slots, h]
  · intro s today now bk h
    simp [get_time_slots, h]

/-- Witness for C8: the disabled-scheduling and no-slots branches discharged
at concrete settings. -/
theorem C8_empty_on_failure_witness :
    get_time_slots ⟨false, 30, 7, [⟨0, 540, 600⟩]⟩ 0 0 [] = [] ∧
    get_time_slots ⟨true, 30, 7, []⟩ 0 0 [] = [] :=
  ⟨C8_empty_on_failure.2.1 ⟨false, 30, 7, [⟨0, 540, 600⟩]⟩ 0 0 [] rfl,
   C8_empty_on_failure.2.2.1 ⟨true, 30, 7, []⟩ 0 0 [] rfl⟩

/-- Concatenating blocks indexed by a `Pairwise lt` list is a chain when each
block is a chain and any element of an earlier block relates to any element
of a later block. -/
theorem chain'_flatMap_blocks {α β : Type} {R : β → β → Prop}
    {lt : α → α → Prop} {f : α → List β} :
    ∀ {l : List α}, l.Pairwise lt →
      (∀ a ∈ l, List.Chain' R (f a)) →
      (∀ a₁ ∈ l, ∀ a₂ ∈ l, lt a₁ a₂ → ∀ x ∈ f a₁, ∀ y ∈ f a₂, R x y) →
      List.Chain' R (l.flatMap f) := by
  intro l
  induction l with
  | nil => intro _ _ _; simp
  | cons a as ih =>
    intro hl hblock hcross
    rw [List.flatMap_cons, List.chain'_append]
    obtain ⟨hpa, hptail⟩ := List.pairwise_cons.mp hl
    refine ⟨hblock a (List.mem_cons_self a as),
      ih hptail (fun b hb => hblock b (List.mem_cons_of_mem a hb))
        (fun a₁ h₁ a₂ h₂ hlt =>
          hcross a₁ (List.mem_cons_of_mem a h₁) a₂
            (List.mem_cons_of_mem a h₂) hlt), ?_⟩
    intro x hx y hy
    have hx' : x ∈ f a := List.mem_of_mem_getLast? hx
    have hy' : y ∈ as.flatMap f := List.mem_of_mem_head? hy
    obtain ⟨a₂, ha₂, hy₂⟩ := List.mem_flatMap.mp hy'
    exact hcross a (List.mem_cons_self a as) a₂ (List.mem_cons_of_mem a ha₂)
      (hpa a₂ ha₂) x hx' y hy₂

/-- One range sweep of the hyphen file emits starts in nondecreasing order on
a fixed date, so it is a `slotLe` chain. -/
theorem slotLoopHy_chain {bk : List Booking} {date dur endT now : Nat} :
    ∀ {fuel cur : Nat},
      List.Chain' slotLe (slotLoopHy bk date dur endT now fuel cur) := by
  intro fuel
  induction fuel with
  | zero => intro cur; simp [slotLoopHy]
  | succ n ih =>
    intro cur
    rw [slotLoopHy]
    by_cases hg : cur + dur ≤ endT
    · rw [if_pos hg]
      by_cases hp : date * 1440 + cur ≤ now
      · rw [if_pos hp]; exact ih
      · rw [if_neg hp]
        by_cases hb : 0 < countBookings bk .appointmentBooking date cur
        · rw [if_pos hb]; exact ih
        · rw [if_neg hb]
          refine List.Chain'.cons' ih ?_
          intro y hy
          have hy' : y ∈ slotLoopHy bk date dur endT now n (cur + dur) :=
            List.mem_of_mem_head? hy
          obtain ⟨⟨k, hk⟩, _, hdate, _, _, _, _⟩ := slotLoopHy_mem hy'
          refine Or.inr ⟨hdate.symm, ?_⟩
          show cur ≤ y.fromMin
          omega
    · rw [if_neg hg]
      simp

/-- **C7 counterexample.** With two working ranges configured for the same
weekday in descending order (`14:00-15:00` before `09:00-10:00` in child-table
order), `book_appointment.get_time_slots` sweeps them in configured order and
returns `[14:00-15:00, 09:00-10:00]` for the same date — not sorted by
`(date, from_time)` ascending. -/
theorem C7_counterexample :
    get_time_slots ⟨true, 60, 1, [⟨0, 840, 900⟩, ⟨0, 540, 600⟩]⟩ 0 0 [] =
      [⟨0, 0, 840, 900⟩, ⟨0, 0, 540, 600⟩] ∧
    ¬ sortedSlots
      (get_time_slots ⟨true, 60, 1, [⟨0, 840, 900⟩, ⟨0, 540, 600⟩]⟩ 0 0 []) := by
  have heq : get_time_slots ⟨true, 60, 1, [⟨0, 840, 900⟩, ⟨0, 540, 600⟩]⟩
      0 0 [] = [⟨0, 0, 840, 900⟩, ⟨0, 0, 540, 600⟩] := by decide
  refine ⟨heq, ?_⟩
  rw [heq]
  intro h
  obtain ⟨hab, _⟩ := List.chain'_cons.mp h
  exact absurd hab (by decide)

/-- **C7 (amended).** Days appear in ascending calendar order in both
implementations: along the output of `book_appointment.get_time_slots` the
dates are nondecreasing.  The hyphen `get_time_slots` (one global range per
day) is moreover always fully sorted by `(date, from_time)` ascending.  In
the underscore implementation a day's several ranges are swept in child-table
order, so within a day the output is sorted only when that day's ranges are
configured in ascending order (see the counterexample). -/
theorem C7_output_order :
    (∀ (s : AppointmentSettings) (services : List Service) (today now : Nat)
        (bk : List Booking),
        sortedSlots (get_time_slots_hy s services today now bk)) ∧
    (∀ (s : BookingSettings) (today now : Nat) (bk : List Booking),
        List.Chain' (fun a b => a.date ≤ b.date)
          (get_time_slots s today now bk)) := by
  constructor
  · intro s services today now bk
    rw [sortedSlots, get_time_slots_hy]
    apply chain'_flatMap_blocks (List.pairwise_lt_range _)
    · intro i _
      dsimp only
      by_cases hc : (today + i) % 7 ∈
          (if s.working_days = [] then [0, 1, 2, 3, 4] else s.working_days)
      · rw [if_pos hc]; exact slotLoopHy_chain
      · rw [if_neg hc]; simp
    · intro i₁ _ i₂ _ hlt x hx y hy
      dsimp only at hx hy
      have hx' : x ∈ slotLoopHy bk (today + i₁) (slot_duration_of services s)
          s.working_end_time now (s.working_end_time + 1)
          s.working_start_time := by
        by_cases hc : (today + i₁) % 7 ∈
            (if s.working_days = [] then [0, 1, 2, 3, 4] else s.working_days)
        · rwa [if_pos hc] at hx
        · rw [if_neg hc] at hx; simp at hx
      have hy' : y ∈ slotLoopHy bk (today + i₂) (slot_duration_of services s)
          s.working_end_time now (s.working_end_time + 1)
          s.working_start_time := by
        by_cases hc : (today + i₂) % 7 ∈
            (if s.working_days = [] then [0, 1, 2, 3, 4] else s.working_days)
        · rwa [if_pos hc] at hy
        · rw [if_neg hc] at hy; simp at hy
      have hdx := (slotLoopHy_mem hx').2.2.1
      have hdy := (slotLoopHy_mem hy').2.2.1
      exact Or.inl (by omega)
  · intro s today now bk
    rw [get_time_slots]
    split
    · simp
    · split
      · simp
      · apply chain'_flatMap_blocks (List.pairwise_lt_range _)
        · intro i _
          dsimp only
          apply List.Pairwise.chain'
          apply List.pairwise_of_forall_mem_list
          intro x hx y hy
          obtain ⟨r, _, hxl⟩ := List.mem_flatMap.mp hx
          obtain ⟨r', _, hyl⟩ := List.mem_flatMap.mp hy
          have hdx := (slotLoop_mem hxl).2.2.1
          have hdy := (slotLoop_mem hyl).2.2.1
          omega
        · intro i₁ _ i₂ _ hlt x hx y hy
          dsimp only at hx hy
          obtain ⟨r, _, hxl⟩ := List.mem_flatMap.mp hx
          obtain ⟨r', _, hyl⟩ := List.mem_flatMap.mp hy
          have hdx := (slotLoop_mem hxl).2.2.1
          have hdy := (slotLoop_mem hyl).2.2.1
          omega

/-! ## Claim C5 -/

/-- **C5.** A payload missing the email field (its earlier checks passing)
makes `create_appointment` return `success=false` with the message naming
email, and no record is created; moreover validation checks the required
fields in the claimed order (name, phone, email, services, location, date,
time) and rejects with the first missing field's message, short-circuiting
the rest (`claimFirstMissing` transcribes the claimed order; the email
well-formedness check sits between the email and services presence checks,
hence the hypothesis that a present email passes it). -/
theorem C5_missing_email :
    (∀ (d : ApptPayload) (ec : String → Except String Unit) (cl : String)
        (ins : ApptRecord → Except String String),
        d.customer_name ≠ "" → d.phone_number ≠ "" → d.email = "" →
        create_appointment d ec cl ins =
          ({ success := false, message := "Email is required",
             appointment_id := none }, none)) ∧
    (∀ (d : ApptPayload) (ec : String → Except String Unit) (cl : String)
        (ins : ApptRecord → Except String String) (m : String),
        (d.email ≠ "" → ec d.email = .ok ()) →
        claimFirstMissing d = some m →
        create_appointment d ec cl ins =
          ({ success := false, message := m, appointment_id := none },
            none)) := by
  constructor
  · intro d ec cl ins h1 h2 h3
    simp [create_appointment, create_appointment_body, h1, h2, h3]
  · intro d ec cl ins m hec hfm
    rw [claimFirstMissing] at hfm
    by_cases h1 : d.customer_name = ""
    · rw [if_pos h1] at hfm
      obtain rfl := Option.some.inj hfm
      simp [create_appointment, create_appointment_body, h1]
    · rw [if_neg h1] at hfm
      by_cases h2 : d.phone_number = ""
      · rw [if_pos h2] at hfm
        obtain rfl := Option.some.inj hfm
        simp [create_appointment, create_appointment_body, h1, h2]
      · rw [if_neg h2] at hfm
        by_cases h3 : d.email = ""
        · rw [if_pos h3] at hfm
          obtain rfl := Option.some.inj hfm
          simp [create_appointment, create_appointment_body, h1, h2, h3]
        · rw [if_neg h3] at hfm
          have hok := hec h3
          by_cases h4 : d.selected_services = []
          · rw [if_pos h4] at hfm
            obtain rfl := Option.some.inj hfm
            simp [create_appointment, create_appointment_body,
              h1, h2, h3, hok, h4]
          · rw [if_neg h4] at hfm
            by_cases h5 : d.meeting_location = ""
            · rw [if_pos h5] at hfm
              obtain rfl := Option.some.inj hfm
              simp [create_appointment, create_appointment_body,
                h1, h2, h3, hok, h4, h5]
            · rw [if_neg h5] at hfm
              by_cases h6 : d.booking_date = ""
              · rw [if_pos h6] at hfm
                obtain rfl := Option.some.inj hfm
                simp [create_appointment, create_appointment_body,
                  h1, h2, h3, hok, h4, h5, h6]
              · rw [if_neg h6] at hfm
                by_cases h7 : d.booking_time = ""
                · rw [if_pos h7] at hfm
                  obtain rfl := Option.some.inj hfm
                  simp [create_appointment, create_appointment_body,
                    h1, h2, h3, hok, h4, h5, h6, h7]
                · rw [if_neg h7] at hfm
                  exact absurd hfm (by simp)

/-- Witness for C5: a concrete payload with name and phone present and email
missing. -/
theorem C5_missing_email_witness :
    create_appointment
      ⟨"Alice", "5550100", "", ["Consultation"], "Our Location",
        "2025-01-01", "09:00:00", "", "", "", ""⟩
      (fun _ => .ok ()) "HQ" (fun _ => .ok "APT-2025-0001") =
      ({ success := false, message := "Email is required",
         appointment_id := none }, none) :=
  C5_missing_email.1
    ⟨"Alice", "5550100", "", ["Consultation"], "Our Location",
      "2025-01-01", "09:00:00", "", "", "", ""⟩
    (fun _ => .ok ()) "HQ" (fun _ => .ok "APT-2025-0001")
    (by decide) (by decide) rfl

/-! ## Claim C4 -/

/-- **C4 counterexample.** The guest-facing endpoints do not reduce
unexpected internal errors to a generic message: `debug_appointment_settings`
returns the exception text and the full `traceback.format_exc()` string to
the guest, and `create_appointment` returns `str(e)` of an internal
`doc.insert` failure as the response message. -/
theorem C4_counterexample :
    debug_appointment_settings
      (.error ("boom",
        "Traceback (most recent call last): internal stack frames")) =
      .errorDetail "boom"
        "Traceback (most recent call last): internal stack frames" ∧
    (create_appointment
        ⟨"Alice", "5550100", "a@example.com", ["Consultation"],
          "Our Location", "2025-01-01", "09:00:00", "", "", "", ""⟩
        (fun _ => .ok ()) "HQ"
        (fun _ => .error "OperationalError: deadlock on tabAppointment Booking")).1.message =
      "OperationalError: deadlock on tabAppointment Booking" := by
  exact ⟨rfl, by decide⟩

/-- **C4 (amended).** Unexpected internal errors are caught at the endpoint
boundary and logged, but the guest-facing response carries the exception
text: `debug_appointment_settings` returns both `str(e)` and the traceback,
and `create_appointment` (both variants share this `except` shape) returns
`str(e)` as the failure message; no generic-message guarantee holds. -/
theorem C4_error_passthrough :
    (∀ msg tb : String,
        debug_appointment_settings (.error (msg, tb)) =
          .errorDetail msg tb) ∧
    (∀ (d : ApptPayload) (ec : String → Except String Unit) (cl m : String),
        d.customer_name ≠ "" → d.phone_number ≠ "" → d.email ≠ "" →
        ec d.email = .ok () → d.selected_services ≠ [] →
        d.meeting_location ≠ "" → d.booking_date ≠ "" →
        d.booking_time ≠ "" →
        (create_appointment d ec cl (fun _ => .error m)).1 =
          { success := false, message := m, appointment_id := none }) ∧
    (∀ (d : VpaPayload) (ec : String → Except String Unit) (m : String),
        d.customer_name ≠ "" → d.phone_number ≠ "" → d.email ≠ "" →
        ec d.email = .ok () → d.appointment_type ≠ "" →
        d.meeting_location ≠ "" → d.booking_date ≠ none →
        d.booking_time ≠ "" →
        (d.company.getD "Directlines" = "Directlines" ∨
          d.company.getD "Directlines" = "Direct Line" ∨
          d.company.getD "Directlines" = "Easy AI") →
        (video_create_appointment d ec (fun _ => .error m)).1 =
          { success := false, message := m, appointment_id := none }) := by
  refine ⟨fun msg tb => rfl, ?_, ?_⟩
  · intro d ec cl m h1 h2 h3 hok h4 h5 h6 h7
    simp [create_appointment, create_appointment_body,
      h1, h2, h3, hok, h4, h5, h6, h7]
  · intro d ec m h1 h2 h3 hok h4 h5 h6 h7 hcomp
    rcases hcomp with hc | hc | hc <;>
      simp [video_create_appointment, video_create_appointment_body,
        h1, h2, h3, hok, h4, h5, h6, h7, hc]

/-- Witness for the amended C4: an internal insert failure's text reaching
the guest response of the general endpoint. -/
theorem C4_error_passthrough_witness :
    (create_appointment
        ⟨"Alice", "5550100", "a@example.com", ["Consultation"],
          "Customer Location", "2025-01-01", "09:00:00", "Doha", "", "", ""⟩
        (fun _ => .ok ()) "HQ" (fun _ => .error "internal failure")).1 =
      { success := false, message := "internal failure",
        appointment_id := none } :=
  C4_error_passthrough.2.1
    ⟨"Alice", "5550100", "a@example.com", ["Consultation"],
      "Customer Location", "2025-01-01", "09:00:00", "Doha", "", "", ""⟩
    (fun _ => .ok ()) "HQ" "internal failure"
    (by decide) (by decide) (by decide) rfl (by decide) (by decide)
    (by decide) (by decide)

/-! ## Claim C10 -/

/-- **C10.** In the video-production `create_appointment` (its other
validations passing): an absent company key defaults to `Directlines`; the
values `Direct Line` and `Directlines` are both normalized to `Directlines`
on the stored record; and any other company value except `Easy AI` yields
`success=false` with the message `Invalid company selected` and no record
created. -/
theorem C10_company_normalization :
    (∀ (d : VpaPayload) (ec : String → Except String Unit)
        (ins : VpaRecord → Except String String),
        d.customer_name ≠ "" → d.phone_number ≠ "" → d.email ≠ "" →
        ec d.email = .ok () → d.appointment_type ≠ "" →
        d.meeting_location ≠ "" → d.booking_date ≠ none →
        d.booking_time ≠ "" → d.company = none →
        ∀ r, (video_create_appointment d ec ins).2 = some r →
          r.company = "Directlines") ∧
    (∀ (d : VpaPayload) (ec : String → Except String Unit)
        (ins : VpaRecord → Except String String) (c : String),
        d.customer_name ≠ "" → d.phone_number ≠ "" → d.email ≠ "" →
        ec d.email = .ok () → d.appointment_type ≠ "" →
        d.meeting_location ≠ "" → d.booking_date ≠ none →
        d.booking_time ≠ "" → d.company = some c →
        (c = "Direct Line" ∨ c = "Directlines") →
        ∀ r, (video_create_appointment d ec ins).2 = some r →
          r.company = "Directlines") ∧
    (∀ (d : VpaPayload) (ec : String → Except String Unit)
        (ins : VpaRecord → Except String String) (c : String),
        d.customer_name ≠ "" → d.phone_number ≠ "" → d.email ≠ "" →
        ec d.email = .ok () → d.appointment_type ≠ "" →
        d.meeting_location ≠ "" → d.booking_date ≠ none →
        d.booking_time ≠ "" → d.company = some c →
        c ≠ "Easy AI" → c ≠ "Directlines" → c ≠ "Direct Line" →
        video_create_appointment d ec ins =
          ({ success := false, message := "Invalid company selected",
             appointment_id := none }, none)) := by
  refine ⟨?_, ?_, ?_⟩
  · intro d ec ins h1 h2 h3 hok h4 h5 h6 h7 hc r hr
    rcases hins : ins (buildVpaDoc d "Directlines") with m | nm
    · have h2nd : (video_create_appointment d ec ins).2 = none := by
        simp [video_create_appointment, video_create_appointment_body,
          h1, h2, h3, hok, h4, h5, h6, h7, hc, hins]
      rw [h2nd] at hr
      exact absurd hr (by simp)
    · have h2nd : (video_create_appointment d ec ins).2 =
          some (buildVpaDoc d "Directlines") := by
        simp [video_create_appointment, video_create_appointment_body,
          h1, h2, h3, hok, h4, h5, h6, h7, hc, hins]
      rw [h2nd] at hr
      obtain rfl := Option.some.inj hr
      rfl
  · intro d ec ins c h1 h2 h3 hok h4 h5 h6 h7 hc hcc r hr
    rcases hins : ins (buildVpaDoc d "Directlines") with m | nm
    · have h2nd : (video_create_appointment d ec ins).2 = none := by
        rcases hcc with hcc | hcc <;>
          simp [video_create_appointment, video_create_appointment_body,
            h1, h2, h3, hok, h4, h5, h6, h7, hc, hcc, hins]
      rw [h2nd] at hr
      exact absurd hr (by simp)
    · have h2nd : (video_create_appointment d ec ins).2 =
          some (buildVpaDoc d "Directlines") := by
        rcases hcc with hcc | hcc <;>
          simp [video_create_appointment, video_create_appointment_body,
            h1, h2, h3, hok, h4, h5, h6, h7, hc, hcc, hins]
      rw [h2nd] at hr
      obtain rfl := Option.some.inj hr
      rfl
  · intro d ec ins c h1 h2 h3 hok h4 h5 h6 h7 hc hne1 hne2 hne3
    simp [video_create_appointment, video_create_appointment_body,
      h1, h2, h3, hok, h4, h5, h6, h7, hc, hne1, hne2, hne3]

/-- Witness for C10: a payload carrying the disallowed company
`Acme Corp` is rejected without a record. -/
theorem C10_company_normalization_witness :
    video_create_appointment
      ⟨"Bob", "5550123", "b@example.com", "New Customer",
        "Customer Location", some 20454, "10:00:00", some "Acme Corp",
        "Media", "Video", "Both", "Open", "", "", "", false, "", "", "",
        "", "", "", "", "", "", ""⟩
      (fun _ => .ok ()) (fun _ => .ok "VPA-2025-0001") =
      ({ success := false, message := "Invalid company selected",
         appointment_id := none }, none) :=
  C10_company_normalization.2.2
    ⟨"Bob", "5550123", "b@example.com", "New Customer",
      "Customer Location", some 20454, "10:00:00", some "Acme Corp",
      "Media", "Video", "Both", "Open", "", "", "", false, "", "", "",
      "", "", "", "", "", "", ""⟩
    (fun _ => .ok ()) (fun _ => .ok "VPA-2025-0001") "Acme Corp"
    (by decide) (by decide) (by decide) rfl (by decide) (by decide)
    (by decide) (by decide) rfl (by decide) (by decide) (by decide)

/-! ## Claim C6 -/

/-- **C6 counterexample.** `VideoProductionAppointment.validate` checks only
the presence of the booking date, not that it lies in the future: a
Current Active Client record with brand name and acknowledgment set and
`booking_date = some 0` (absolute day 0, in the past relative to every
positive current day) passes validation, although the claim requires
rejection unless the booking date lies in the future. -/
theorem C6_counterexample :
    vpaValidate
      { company := "Directlines", customer_name := "Bob",
        phone_number := "5550123", email := "b@example.com",
        appointment_type := "Current Active Client",
        meeting_location := "Customer Location", booking_date := some 0,
        booking_time := "10:00:00", status := "Pending", industry := "",
        service := "", requirements := "", budget := "", notes := "",
        references := "", brand_name := "Acme",
        acknowledgment_checkbox := true, current_client_references := "",
        google_location := "", city := "", zone_number := "",
        street_number := "", building_number := "", location := "",
        street_name := "", building_name := "", apartment_number := "" } =
      .ok () := by
  rfl

/-- **C6 (amended).** For `appointment_type = "Current Active Client"`,
`validate` succeeds iff the record has a brand name, a booking date that is
merely present (its futurity is never checked), and the acknowledgment flag
set; for `appointment_type = "New Customer"` it succeeds iff industry,
requirements, and budget are present. -/
theorem C6_validate_presence :
    (∀ doc : VpaRecord, doc.appointment_type = "Current Active Client" →
        (vpaValidate doc = .ok () ↔
          doc.brand_name ≠ "" ∧ doc.booking_date ≠ none ∧
            doc.acknowledgment_checkbox = true)) ∧
    (∀ doc : VpaRecord, doc.appointment_type = "New Customer" →
        (vpaValidate doc = .ok () ↔
          doc.industry ≠ "" ∧ doc.requirements ≠ "" ∧
            doc.budget ≠ "")) := by
  constructor
  · intro doc htype
    rw [vpaValidate, htype]
    rw [if_neg (by decide), if_pos (by decide)]
    constructor
    · intro h
      by_cases hb : doc.brand_name = ""
      · rw [if_pos hb] at h; simp at h
      · rw [if_neg hb] at h
        by_cases hd : doc.booking_date = none
        · rw [if_pos hd] at h; simp at h
        · rw [if_neg hd] at h
          by_cases ha : doc.acknowledgment_checkbox = false
          · rw [if_pos ha] at h; simp at h
          · rw [if_neg ha] at h
            exact ⟨hb, hd, by simpa using ha⟩
    · rintro ⟨hb, hd, ha⟩
      rw [if_neg hb, if_neg hd, if_neg (by simp [ha])]
  · intro doc htype
    rw [vpaValidate, htype]
    rw [if_pos (by decide)]
    constructor
    · intro h
      by_cases hi : doc.industry = ""
      · rw [if_pos hi] at h; simp at h
      · rw [if_neg hi] at h
        by_cases hr : doc.requirements = ""
        · rw [if_pos hr] at h; simp at h
        · rw [if_neg hr] at h
          by_cases hg : doc.budget = ""
          · rw [if_pos hg] at h; simp at h
          · rw [if_neg hg] at h
            exact ⟨hi, hr, hg⟩
    · rintro ⟨hi, hr, hg⟩
      rw [if_neg hi, if_neg hr, if_neg hg]

/-- Witness for the amended C6: a complete Current Active Client record
passes validation via the iff. -/
theorem C6_validate_presence_witness :
    vpaValidate
      { company := "Directlines", customer_name := "Bob",
        phone_number := "5550123", email := "b@example.com",
        appointment_type := "Current Active Client",
        meeting_location := "Customer Location", booking_date := some 20454,
        booking_time := "10:00:00", status := "Pending", industry := "",
        service := "", requirements := "", budget := "", notes := "",
        references := "", brand_name := "Acme",
        acknowledgment_checkbox := true, current_client_references := "",
        google_location := "", city := "", zone_number := "",
        street_number := "", building_number := "", location := "",
        street_name := "", building_name := "", apartment_number := "" } =
      .ok () :=
  (C6_validate_presence.1
    { company := "Directlines", customer_name := "Bob",
      phone_number := "5550123", email := "b@example.com",
      appointment_type := "Current Active Client",
      meeting_location := "Customer Location", booking_date := some 20454,
      booking_time := "10:00:00", status := "Pending", industry := "",
      service := "", requirements := "", budget := "", notes := "",
      references := "", brand_name := "Acme",
      acknowledgment_checkbox := true, current_client_references := "",
      google_location := "", city := "", zone_number := "",
      street_number := "", building_number := "", location := "",
      street_name := "", building_name := "", apartment_number := "" }
    rfl).mpr ⟨by decide, by decide, rfl⟩

theorem appendSlots_time_slots :
    ∀ (slots : List TimeSlotRow) (doc : UARecord),
      appendSlots doc slots =
        { doc with time_slots := doc.time_slots ++ slots } := by
  intro slots
  induction slots with
  | nil => intro doc; simp [appendSlots]
  | cons s ss ih =>
    intro doc
    have h1 : appendSlots doc (s :: ss) =
        appendSlots { doc with time_slots := doc.time_slots ++ [s] } ss :=
      rfl
    rw [h1, ih]
    simp

theorem findUA_replaceFirst_self (user day : String) (new : UARecord)
    (hu : new.user = user) (hd : new.day_of_week = day) :
    ∀ store : List UARecord, (findUA store user day).isSome →
      findUA (replaceFirst user day new store) user day = some new := by
  intro store
  induction store with
  | nil => intro h; simp [findUA] at h
  | cons r rs ih =>
    intro h
    rw [replaceFirst]
    by_cases hr : r.user = user ∧ r.day_of_week = day
    · rw [if_pos hr]
      simp [findUA, List.find?_cons, hu, hd]
    · rw [if_neg hr]
      have hp : decide (r.user = user ∧ r.day_of_week = day) = false := by
        simpa using hr
      simp only [findUA, List.find?_cons, hp] at h ⊢
      exact ih h

theorem findUA_replaceFirst_ne {user day day' : String} {new : UARecord}
    (hne : day ≠ day') (hnew : new.day_of_week = day) :
    ∀ store : List UARecord,
      findUA (replaceFirst user day new store) user day' =
        findUA store user day' := by
  intro store
  induction store with
  | nil => rfl
  | cons r rs ih =>
    rw [replaceFirst]
    by_cases hr : r.user = user ∧ r.day_of_week = day
    · rw [if_pos hr]
      have hp1 : decide (new.user = user ∧ new.day_of_week = day') =
          false := by simp [hnew, hne]
      have hp2 : decide (r.user = user ∧ r.day_of_week = day') = false := by
        simp [hr.2, hne]
      simp only [findUA, List.find?_cons, hp1, hp2]
    · rw [if_neg hr]
      cases hq : decide (r.user = user ∧ r.day_of_week = day') with
      | true => simp only [findUA, List.find?_cons, hq]
      | false =>
        simp only [findUA, List.find?_cons, hq]
        exact ih

theorem findUA_applyDay_self (store : List UARecord) (user : String)
    (e : DayEntry) :
    findUA (applyDay store user e) user e.day =
      some ⟨user, e.day, e.is_available,
        if e.is_available then e.time_slots else []⟩ := by
  rw [applyDay]
  cases hfind : findUA store user e.day with
  | none =>
    dsimp only
    have hdoc : (if e.is_available then
          appendSlots ⟨user, e.day, e.is_available, []⟩ e.time_slots
        else (⟨user, e.day, e.is_available, []⟩ : UARecord)) =
        (⟨user, e.day, e.is_available,
          if e.is_available then e.time_slots else []⟩ : UARecord) := by
      by_cases ha : e.is_available
      · rw [if_pos ha, if_pos ha, appendSlots_time_slots]
        simp
      · rw [if_neg ha, if_neg ha]
    rw [hdoc]
    rw [findUA] at hfind ⊢
    rw [List.find?_append, hfind]
    simp
  | some old =>
    dsimp only
    have hpred := List.find?_some hfind
    rw [decide_eq_true_eq] at hpred
    obtain ⟨hou, hod⟩ := hpred
    have hupd : (if e.is_available then
          appendSlots
            { old with is_available := e.is_available, time_slots := [] }
            e.time_slots
        else
          { old with is_available := e.is_available, time_slots := [] }) =
        (⟨user, e.day, e.is_available,
          if e.is_available then e.time_slots else []⟩ : UARecord) := by
      rcases old with ⟨ou, od, oa, ots⟩
      obtain rfl : ou = user := hou
      obtain rfl : od = e.day := hod
      by_cases ha : e.is_available
      · rw [if_pos ha, if_pos ha, appendSlots_time_slots]
        simp
      · rw [if_neg ha, if_neg ha]
    rw [hupd]
    exact findUA_replaceFirst_self user e.day _ rfl rfl store
      (by rw [hfind]; rfl)

theorem findUA_applyDay_other (store : List UARecord) (user : String)
    (e : DayEntry) (day' : String) (hne : e.day ≠ day') :
    findUA (applyDay store user e) user day' =
      findUA store user day' := by
  rw [applyDay]
  cases hfind : findUA store user e.day with
  | none =>
    dsimp only
    have hday : (if e.is_available then
          appendSlots ⟨user, e.day, e.is_available, []⟩ e.time_slots
        else (⟨user, e.day, e.is_available, []⟩ : UARecord)).day_of_week =
        e.day := by
      by_cases ha : e.is_available
      · rw [if_pos ha, appendSlots_time_slots]
      · rw [if_neg ha]
    rw [findUA, List.find?_append]
    cases hq : List.find?
        (fun r : UARecord =>
          decide (r.user = user ∧ r.day_of_week = day')) store with
    | some x => rw [findUA, hq]; rfl
    | none =>
      rw [findUA, hq]
      simp only [Option.or]
      rw [List.find?_cons_of_neg _ (by simp [hday, hne])]
      rfl
  | some old =>
    dsimp only
    have hpred := List.find?_some hfind
    rw [decide_eq_true_eq] at hpred
    apply findUA_replaceFirst_ne hne
    by_cases ha : e.is_available
    · rw [if_pos ha, appendSlots_time_slots]
      exact hpred.2
    · rw [if_neg ha]
      exact hpred.2

theorem findUA_save_untouched (user : String) :
    ∀ (entries : List DayEntry) (store : List UARecord) (day : String),
      (∀ e ∈ entries, e.day ≠ day) →
      findUA (save_availability store user entries) user day =
        findUA store user day := by
  intro entries
  induction entries with
  | nil => intro store day _; rfl
  | cons e es ih =>
    intro store day hall
    have hstep : save_availability store user (e :: es) =
        save_availability (applyDay store user e) user es := rfl
    rw [hstep,
      ih (applyDay store user e) day
        (fun x hx => hall x (List.mem_cons_of_mem e hx)),
      findUA_applyDay_other store user e day
        (hall e (List.mem_cons_self e es))]

/-! ## Claim C9 -/

/-- **C9.** After `save_availability` (payload listing each day at most
once), the persisted record for `(user, e.day)` is exactly
`{user, day, is_available := e.is_available, time_slots := payload slots if
available else []}`: a falsy `is_available` yields `is_available = 0` with an
empty `time_slots` even when the payload supplied slots, and on update the
previously stored slots are replaced by the payload's, never appended to. -/
theorem C9_availability_reset :
    ∀ (store : List UARecord) (user : String) (entries : List DayEntry),
      entries.Pairwise (fun a b => a.day ≠ b.day) →
      ∀ e ∈ entries,
        findUA (save_availability store user entries) user e.day =
          some ⟨user, e.day, e.is_available,
            if e.is_available then e.time_slots else []⟩ := by
  intro store user entries
  induction entries generalizing store with
  | nil => intro _ e he; simp at he
  | cons x xs ih =>
    intro hpw e he
    obtain ⟨hx, hxs⟩ := List.pairwise_cons.mp hpw
    have hstep : save_availability store user (x :: xs) =
        save_availability (applyDay store user x) user xs := rfl
    rcases List.mem_cons.mp he with rfl | he'
    · rw [hstep,
        findUA_save_untouched user xs (applyDay store user e) e.day
          (fun y hy => (hx y hy).symm)]
      exact findUA_applyDay_self store user e
    · rw [hstep]
      exact ih (applyDay store user x) hxs e he'

/-- Witness for C9: an update whose payload marks Monday unavailable while
still supplying a slot list; the stored record ends unavailable and empty,
the previous slots replaced. -/
theorem C9_availability_reset_witness :
    findUA
      (save_availability
        [⟨"user@example.com", "Monday", true, [⟨"09:00:00", "17:00:00"⟩]⟩]
        "user@example.com"
        [⟨"Monday", false, [⟨"10:00:00", "12:00:00"⟩]⟩])
      "user@example.com" "Monday" =
      some ⟨"user@example.com", "Monday", false, []⟩ :=
  C9_availability_reset
    [⟨"user@example.com", "Monday", true, [⟨"09:00:00", "17:00:00"⟩]⟩]
    "user@example.com"
    [⟨"Monday", false, [⟨"10:00:00", "12:00:00"⟩]⟩]
    (by simp)
    ⟨"Monday", false, [⟨"10:00:00", "12:00:00"⟩]⟩ (by simp)

end AppointmentAddons
